import Mathlib

/-!
Verification of the `cd_viabilidade` logistics-viability engine.

This file gives a shallow embedding, in Lean 4, of the parts of the
repository that the claims under scrutiny talk about:

* `cost_matrix.py`   — `build_cost_matrix`, `_safe_distance_km`,
  `_compute_freight_cost`;
* `auto_costs.py`    — `estimate_fixed_costs` and its per-row arithmetic;
* `cli.py`           — the scenario-policy branch of `execute_scenario`
  (lines 80-88) that derives solver constraints from a scenario;
* `facility_location.py` — `solve_facility_location`.

Modelling conventions.  Monetary quantities, distances and factors are
rational numbers (`ℚ`); a pandas `NaN` / absent value is `Option.none`;
a Python `dict` is an association list where the *last* binding wins
(Python dict construction overwrites earlier keys); raising an
exception is returning `Except.error`.  The external CBC solver is
modelled by an `Oracle` handing back a status string and binary values
for the decision variables; theorems that speak about solved instances
assume the oracle is sound: a reported `"Optimal"` status comes with
values satisfying the model's constraints (which is what an exact MILP
backend guarantees).  The geodesic-distance routine of `geopy` is
floating-point geodesy and is abstracted as an arbitrary function
parameter `geodist`.

A note on the source of `solve_facility_location`: in the repository,
lines 36-55 of `facility_location.py` (the forced∩candidate
intersection check and the removal of forced members from the
candidate list) carry diff `+` markers and sit textually *inside* the
function's docstring, whose opening quotes are on line 35 and closing
quotes on line 60 — a misapplied patch.  That block is string content,
not executable code (indeed the docstring is indented one column
deeper than the function body, so the module as shipped does not even
parse).  The embedding below therefore models the executable body,
lines 61-166, in which no intersection validation or removal occurs.
-/

/-! ## List utilities: Python's `sorted` over strings -/

/-- Lexicographic comparison of strings by Unicode code point —
the order Python's `sorted` uses on `str`. -/
def strLe (a b : String) : Bool := go a.data b.data
  where go : List Char → List Char → Bool
    | [], _ => true
    | _ :: _, [] => false
    | c :: cs, d :: ds =>
      if c.val < d.val then true else if d.val < c.val then false else go cs ds

/-- Insert into a sorted list (helper of `sortBy`). -/
def insertSorted (le : α → α → Bool) (a : α) : List α → List α
  | [] => [a]
  | b :: l => if le a b then a :: b :: l else b :: insertSorted le a l

/-- Insertion sort — the model of Python's `sorted`. -/
def sortBy (le : α → α → Bool) : List α → List α
  | [] => []
  | a :: l => insertSorted le a (sortBy le l)

theorem insertSorted_perm (le : α → α → Bool) (a : α) (l : List α) :
    List.Perm (insertSorted le a l) (a :: l) := by
  induction l with
  | nil => simp [insertSorted]
  | cons b t ih =>
    simp only [insertSorted]
    by_cases h : le a b = true
    · simp [h]
    · simp only [h, if_false, Bool.false_eq_true]
      exact Trans.trans (List.Perm.cons b ih) (List.Perm.swap a b t)

theorem sortBy_perm (le : α → α → Bool) (l : List α) : List.Perm (sortBy le l) l := by
  induction l with
  | nil => simp [sortBy]
  | cons a t ih =>
    exact Trans.trans (insertSorted_perm le a (sortBy le t)) (List.Perm.cons a ih)

/-! ## Rounding (Python `round`, banker's rounding, on exact rationals) -/

/-- Round a rational to the nearest integer, ties to even
(Python's `round` on the idealised exact value). -/
def roundHalfEven (q : ℚ) : ℤ :=
  let f : ℤ := ⌊q⌋
  let r : ℚ := q - f
  if r < 1/2 then f
  else if 1/2 < r then f + 1
  else if Even f then f else f + 1

/-- `round(q, n)` — round to `n` decimal places, ties to even. -/
def roundTo (n : ℕ) (q : ℚ) : ℚ :=
  (roundHalfEven (q * 10 ^ n) : ℚ) / 10 ^ n

/-! ## `cost_matrix.py` -/

/-- A row of the `candidates` table: `facility_id`, `lat`, `lon`
(coordinates may be missing, i.e. `NaN`). -/
structure Candidate where
  facility_id : String
  lat : Option ℚ
  lon : Option ℚ
deriving DecidableEq

/-- A row of the `demand_points` table: `client_id`, `lat`, `lon` and
the optional `demanda` column (`none` models an absent value). -/
structure DemandPoint where
  client_id : String
  lat : Option ℚ
  lon : Option ℚ
  demanda : Option ℚ
deriving DecidableEq

/-- A row of the long-format output of `build_cost_matrix`. -/
structure CostRowOut where
  facility_id : String
  client_id : String
  demanda : ℚ
  distance_km : Option ℚ
  freight_cost : Option ℚ
  tributacao : ℚ
  salario_logistica : ℚ
deriving DecidableEq

/-- The `scenario_params` dict; each field overrides a default
(`tributacao` defaults to `0`, `salario_logistica` to `1`). -/
structure ScenarioParams where
  tributacao : Option ℚ
  salario_logistica : Option ℚ
deriving DecidableEq

/-- `_safe_distance_km`: `none` when any of the four coordinates is
missing, otherwise the geographic distance computed by the (abstracted)
distance routine `geodist`. -/
def safe_distance_km (geodist : ℚ → ℚ → ℚ → ℚ → ℚ) :
    Option ℚ → Option ℚ → Option ℚ → Option ℚ → Option ℚ
  | some dlat, some dlon, some clat, some clon => some (geodist dlat dlon clat clon)
  | _, _, _, _ => none

/-- `_compute_freight_cost`: `demand * distance_km * tarifa_km`
grossed up by `(1 + tributacao)` and scaled by `salario_logistica`. -/
def compute_freight_cost (demand distance_km tarifa_km tributacao salario_logistica : ℚ) : ℚ :=
  demand * distance_km * tarifa_km * (1 + tributacao) * salario_logistica

/-- One row of `build_cost_matrix`'s inner loop body for a fixed
candidate and demand point. -/
def costMatrixRow (geodist : ℚ → ℚ → ℚ → ℚ → ℚ) (tarifa_km tributacao salario_logistica : ℚ)
    (candidate : Candidate) (demand_point : DemandPoint) : CostRowOut :=
  let demand_value : ℚ := demand_point.demanda.getD 1
  match safe_distance_km geodist demand_point.lat demand_point.lon candidate.lat candidate.lon with
  | none =>
      { facility_id := candidate.facility_id
        client_id := demand_point.client_id
        demanda := demand_value
        distance_km := none
        freight_cost := none
        tributacao := tributacao
        salario_logistica := salario_logistica }
  | some dist_km =>
      { facility_id := candidate.facility_id
        client_id := demand_point.client_id
        demanda := demand_value
        distance_km := some (roundTo 3 dist_km)
        freight_cost := some (roundTo 2
          (compute_freight_cost demand_value dist_km tarifa_km tributacao salario_logistica))
        tributacao := tributacao
        salario_logistica := salario_logistica }

/-- `build_cost_matrix`: the dense long-format matrix, one row per
(candidate, demand point) pair, candidates outer loop.  Total: it
never raises. -/
def build_cost_matrix (geodist : ℚ → ℚ → ℚ → ℚ → ℚ)
    (candidates : List Candidate) (demand_points : List DemandPoint)
    (tarifa_km : ℚ) (scenario_params : Option ScenarioParams) : List CostRowOut :=
  let params := scenario_params.getD ⟨none, none⟩
  let tributacao := params.tributacao.getD 0
  let salario_logistica := params.salario_logistica.getD 1
  candidates.flatMap fun candidate =>
    demand_points.map (costMatrixRow geodist tarifa_km tributacao salario_logistica candidate)

/-! ## `auto_costs.py` -/

/-- `CostEstimationConfig` with the defaults of the source. -/
structure CostEstimationConfig where
  capacidade_padrao_m2 : ℚ := 4000
  custo_utilidades_pct : ℚ := 12/100
  custo_overhead_pct : ℚ := 8/100
  custo_inbound_base : ℚ := 80000
deriving DecidableEq

/-- A row of the `facilities` table as consumed by
`estimate_fixed_costs`; `none` in `ocupacao` / `capacidade_m2` models
an absent column or a value `to_numeric` coerces to `NaN`
(`_safe_series` then substitutes the default). -/
structure FacilityRow where
  facility_id : String
  uf : String
  ocupacao : Option ℚ
  capacidade_m2 : Option ℚ
deriving DecidableEq

/-- A row of the `regional_costs` table (required columns only). -/
structure RegionalRow where
  uf : String
  labor_cost_index : ℚ
  real_estate_cost_m2 : ℚ
  tax_factor : ℚ
  transport_factor : ℚ
deriving DecidableEq

/-- A row of the estimator's output table. -/
structure FixedCostRow where
  facility_id : String
  labor_cost : ℚ
  real_estate_cost : ℚ
  utilities_cost : ℚ
  overhead_cost : ℚ
  inbound_cost : ℚ
  tax_factor : ℚ
  fixed_cost : ℚ
deriving DecidableEq

/-- The per-facility arithmetic of `estimate_fixed_costs` (lines
61-83): occupancy defaulted to `0.75` and clipped to `[0.1, 1.0]`,
then labor / real-estate / utilities / overhead / inbound components,
grossed up by `tax_factor`, each output rounded to 2 decimals. -/
def estimateRow (cfg : CostEstimationConfig) (f : FacilityRow) (r : RegionalRow) : FixedCostRow :=
  let capacidade_m2 : ℚ := f.capacidade_m2.getD cfg.capacidade_padrao_m2
  let ocupacao : ℚ := min 1 (max (1/10) (f.ocupacao.getD (3/4)))
  let labor_cost := r.labor_cost_index * ocupacao * 250000
  let real_estate_cost := r.real_estate_cost_m2 * capacidade_m2
  let utilities := (labor_cost + real_estate_cost) * cfg.custo_utilidades_pct
  let overhead := (labor_cost + real_estate_cost) * cfg.custo_overhead_pct
  let inbound_cost := cfg.custo_inbound_base * r.transport_factor
  let operational := labor_cost + real_estate_cost + utilities + overhead + inbound_cost
  let total_fixed := operational * (1 + r.tax_factor)
  { facility_id := f.facility_id
    labor_cost := roundTo 2 labor_cost
    real_estate_cost := roundTo 2 real_estate_cost
    utilities_cost := roundTo 2 utilities
    overhead_cost := roundTo 2 overhead
    inbound_cost := roundTo 2 inbound_cost
    tax_factor := r.tax_factor
    fixed_cost := roundTo 2 total_fixed }

/-- `estimate_fixed_costs`: left-join facilities with regional rows on
`uf` (the source validates the join as many-to-one, so the first
matching regional row is the unique one); any facility without a
regional match is the "facilities sem parâmetros regionais" error. -/
def estimate_fixed_costs (facilities : List FacilityRow) (regional_costs : List RegionalRow)
    (cfg : CostEstimationConfig) : Except String (List FixedCostRow) :=
  if facilities.any (fun f => (regional_costs.find? (fun r => r.uf = f.uf)).isNone) then
    .error "Há facilities sem parâmetros regionais. Verifique correspondência de UF em regional_costs.csv"
  else
    .ok (facilities.filterMap fun f =>
      (regional_costs.find? (fun r => r.uf = f.uf)).map (estimateRow cfg f))

/-! ## `cli.py` — the scenario policy of `execute_scenario` -/

/-- `ScenarioConfig` of `scenarios.py` with its defaults. -/
structure ScenarioConfig where
  crescimento_demanda : ℚ := 0
  fator_tributario : ℚ := 0
  fator_salarial : ℚ := 1
  limite_novos_cds : Option ℕ := none
deriving DecidableEq

/-- Python's `a or b` on an optional integer: `None` and `0` are both
falsy, so they fall through to `b`. -/
def pyOrNat (a : Option ℕ) (b : ℕ) : ℕ :=
  match a with
  | none => b
  | some n => if n = 0 then b else n

/-- The constraint-derivation branch of `execute_scenario`
(`cli.py` lines 80-88): returns
`(max_new_facilities, min_total_open_facilities)`. -/
def scenarioSolverParams (scenario_name : String) (cfg : ScenarioConfig)
    (existing : List String) (default_facility_limit : ℕ) : ℕ × Option ℕ :=
  if scenario_name = "base" ∧ existing ≠ [] then
    (0, some existing.length)
  else if cfg.limite_novos_cds.isSome ∧ existing ≠ [] then
    (cfg.limite_novos_cds.getD 0, some (existing.length + cfg.limite_novos_cds.getD 0))
  else
    (pyOrNat cfg.limite_novos_cds default_facility_limit, none)

/-- The same policy read off the spec's words for the third case: "the
scenario's limit **if given**, else the configured default" — i.e. a
plain `Option.getD`, not Python truthiness.  Used to compare the claim
against the source. -/
def scenarioSolverParamsSpec (scenario_name : String) (cfg : ScenarioConfig)
    (existing : List String) (default_facility_limit : ℕ) : ℕ × Option ℕ :=
  if scenario_name = "base" ∧ existing ≠ [] then
    (0, some existing.length)
  else if cfg.limite_novos_cds.isSome ∧ existing ≠ [] then
    (cfg.limite_novos_cds.getD 0, some (existing.length + cfg.limite_novos_cds.getD 0))
  else
    (cfg.limite_novos_cds.getD default_facility_limit, none)

/-! ## `facility_location.py` -/

/-- A row of the cost-matrix DataFrame as consumed by
`solve_facility_location`.  `cost` is the `unit_cost`/`freight_cost`
value, `none` modelling `NaN` (such rows are dropped by the
`dropna` when the variable-cost dict is built); `demanda` is the
row's value of the optional `demanda` column (meaningful only when
the matrix's `hasDemanda` flag is set). -/
structure CostRow where
  facility_id : String
  client_id : String
  cost : Option ℚ
  demanda : ℚ
deriving DecidableEq

/-- The cost-matrix DataFrame: its rows plus whether the `demanda`
column is present. -/
structure CostMatrix where
  rows : List CostRow
  hasDemanda : Bool
deriving DecidableEq

/-- The typed result of the optimisation (`SolutionResult`). -/
structure SolutionResult where
  open_facilities : List String
  total_cost : ℚ
  fixed_cost : ℚ
  variable_cost : ℚ
  allocation : List (String × String)
deriving DecidableEq

/-- The exceptions `solve_facility_location` can raise before or at
solve time, in structured form: the three `ValueError`s, the
`KeyError` of the capacity lookup, and the `RuntimeError` carrying
the solver status. -/
inductive SolveError where
  | unknownForced (ids : List String)
  | unknownCandidates (ids : List String)
  | missingCost (facility client : String)
  | capacityKeyError (facility : String)
  | solverNotOptimal (status : String)
deriving DecidableEq

/-- Equality of `Except` outcomes is decidable when it is on both
sides, so solved instances can be checked by evaluation. -/
instance Except.decEqInst {ε α : Type} [DecidableEq ε] [DecidableEq α] :
    DecidableEq (Except ε α) := fun a b =>
  match a, b with
  | .ok v, .ok w =>
    if h : v = w then .isTrue (by rw [h]) else .isFalse (fun hc => by cases hc; exact h rfl)
  | .error e, .error e' =>
    if h : e = e' then .isTrue (by rw [h]) else .isFalse (fun hc => by cases hc; exact h rfl)
  | .ok _, .error _ => .isFalse (fun hc => by cases hc)
  | .error _, .ok _ => .isFalse (fun hc => by cases hc)

/-- The external MILP backend (`pulp` + CBC): a status string and the
values it reports for the binary variables `y` (facility open) and
`x` (client-to-facility assignment; first argument the client).  The
`> 0.5` extraction threshold of the source on exact binary variables
is `= true` here. -/
structure Oracle where
  status : String
  y : String → Bool
  x : String → String → Bool

/-- `facilities`: the `facility_id` column of the fixed-cost table, in
table order. -/
def facilitiesOf (fixed_costs : List (String × ℚ)) : List String :=
  fixed_costs.map (fun p => p.1)

/-- `clients`: the sorted unique client ids of the cost matrix. -/
def clientsOf (cm : CostMatrix) : List String :=
  sortBy strLe ((cm.rows.map (fun r => r.client_id)).dedup)

/-- The variable-cost dict: built from the rows whose cost is defined
(`dropna`), keyed by `(facility_id, client_id)`, later rows
overwriting earlier ones as in a Python dict comprehension. -/
def varCostOf (cm : CostMatrix) (facility client : String) : Option ℚ :=
  ((cm.rows.filterMap fun r =>
      r.cost.map (fun q => ((r.facility_id, r.client_id), q))).reverse).lookup (facility, client)

/-- The fixed-cost dict lookup (every facility of the table has an
entry, so the `getD 0` default is never exercised on keys of
`facilitiesOf`). -/
def fixedCostOf (fixed_costs : List (String × ℚ)) (facility : String) : ℚ :=
  ((fixed_costs.reverse).lookup facility).getD 0

/-- `forced_open`: the set built from `forced_open_facilities or []`,
as a duplicate-free list. -/
def forcedOf (forced_open_facilities : Option (List String)) : List String :=
  (forced_open_facilities.getD []).dedup

/-- `candidate_set`: all facilities minus the forced-open ones when no
explicit candidate list is given, otherwise the given list as a set. -/
def candidateSetOf (facilities forced : List String) :
    Option (List String) → List String
  | none => facilities.dedup.filter (fun f => ! forced.contains f)
  | some cs => cs.dedup

/-- The demand inferred from the matrix's `demanda` column
(`drop_duplicates` keeps the first row of each client). -/
def inferredDemand (cm : CostMatrix) (client : String) : Option ℚ :=
  if cm.hasDemanda then
    (cm.rows.map (fun r => (r.client_id, r.demanda))).lookup client
  else none

/-- `client_demand[c]`: the `demand_by_client` override when present,
else the inferred demand, else `1.0`. -/
def demandOfClient (cm : CostMatrix) (demand_by_client : Option (List (String × ℚ)))
    (client : String) : ℚ :=
  match ((demand_by_client.getD []).reverse).lookup client with
  | some v => v
  | none => (inferredDemand cm client).getD 1

/-- The completeness check of lines 107-110: the first
`(facility, client)` pair — clients outer loop, facilities inner —
with no defined cost, if any. -/
def firstMissingCost (vc : String → String → Option ℚ) (facilities : List String) :
    List String → Option (String × String)
  | [] => none
  | c :: rest =>
    match facilities.find? (fun f => (vc f c).isNone) with
    | some f => some (f, c)
    | none => firstMissingCost vc facilities rest

/-- The first facility (in table order) whose key is absent from the
capacity dict, if a capacity dict was given — the `KeyError` of
line 129. -/
def firstMissingCapacity (facilities : List String) :
    Option (List (String × ℚ)) → Option String
  | none => none
  | some cap => facilities.find? (fun f => ((cap.reverse).lookup f).isNone)

/-- The sorted unknown forced-open ids (`forced_open - set(facilities)`),
whose non-emptiness is the first configuration error. -/
def unknownForcedOf (facilities forced : List String) : List String :=
  sortBy strLe (forced.filter (fun f => ! facilities.contains f))

/-- The sorted unknown candidate ids (`candidate_set - set(facilities)`),
empty when no explicit candidate list is given. -/
def unknownCandsOf (facilities : List String) : Option (List String) → List String
  | none => []
  | some cs => sortBy strLe (cs.dedup.filter (fun f => ! facilities.contains f))

/-- The objective value reported by the solver, evaluated at the
returned variable values: variable part plus fixed part, both summed
over the source's iteration ranges. -/
def objectiveValue (cm : CostMatrix) (fixed_costs : List (String × ℚ)) (o : Oracle) : ℚ :=
  let facilities := facilitiesOf fixed_costs
  let clients := clientsOf cm
  ((clients.map fun c =>
      (facilities.map fun f =>
        (varCostOf cm f c).getD 0 * (if o.x c f then 1 else 0)).sum).sum)
  + (facilities.map fun f => fixedCostOf fixed_costs f * (if o.y f then 1 else 0)).sum

/-- Solution extraction (lines 145-166): open facilities are those
with `y > 0.5`; the allocation dict maps each client to the last
facility with `x > 0.5` (clients outer loop, so keys follow client
order, a client with no chosen facility being skipped); realized fixed
and variable costs are recomputed from the extraction, while
`total_cost` is the solver's objective value. -/
def extractResult (cm : CostMatrix) (fixed_costs : List (String × ℚ)) (o : Oracle) :
    SolutionResult :=
  let facilities := facilitiesOf fixed_costs
  let clients := clientsOf cm
  let openFacilities := facilities.filter (fun f => o.y f)
  let allocation := clients.filterMap fun c =>
    ((facilities.filter (fun f => o.x c f)).getLast?).map (fun f => (c, f))
  { open_facilities := openFacilities
    total_cost := objectiveValue cm fixed_costs o
    fixed_cost := (openFacilities.map (fixedCostOf fixed_costs)).sum
    variable_cost := (allocation.map (fun p => (varCostOf cm p.2 p.1).getD 0)).sum
    allocation := allocation }

/-- The constraint system of the model built in lines 112-139,
as satisfied by an assignment of binary values: single assignment per
client, assignment only to open facilities, forced facilities open,
optional capacity bound per facility, optional cap on openings within
the candidate set, optional floor on the total open count. -/
def feasibleAssignment (facilities clients forced candidateSet : List String)
    (demandOf : String → ℚ) (capacity_by_facility : Option (List (String × ℚ)))
    (max_new_facilities min_total_open_facilities : Option ℕ)
    (y : String → Bool) (x : String → String → Bool) : Prop :=
  (∀ c ∈ clients, facilities.countP (fun f => x c f) = 1) ∧
  (∀ c ∈ clients, ∀ f ∈ facilities, x c f = true → y f = true) ∧
  (∀ f ∈ forced, y f = true) ∧
  (∀ cap ∈ capacity_by_facility, ∀ f ∈ facilities,
     (clients.map fun c => if x c f then demandOf c else 0).sum ≤ ((cap.reverse).lookup f).getD 0) ∧
  (∀ m ∈ max_new_facilities, candidateSet.countP (fun f => y f) ≤ m) ∧
  (∀ m ∈ min_total_open_facilities, m ≤ facilities.countP (fun f => y f))

/-- Feasibility is decidable, so it can be checked on concrete
instances by evaluation. -/
instance feasibleAssignment.dec (facilities clients forced candidateSet : List String)
    (demandOf : String → ℚ) (capacity_by_facility : Option (List (String × ℚ)))
    (max_new_facilities min_total_open_facilities : Option ℕ)
    (y : String → Bool) (x : String → String → Bool) :
    Decidable (feasibleAssignment facilities clients forced candidateSet demandOf
      capacity_by_facility max_new_facilities min_total_open_facilities y x) := by
  unfold feasibleAssignment
  infer_instance

/-- `solve_facility_location` — the executable body of the source
(lines 61-166; see the header note on the inert docstring block):
validations in source order (unknown forced ids, unknown candidate
ids, cost completeness over the full facility × client universe,
capacity-dict lookup), then the backend call modelled by the oracle:
a non-`"Optimal"` status is the `RuntimeError`, an `"Optimal"` one is
extracted into a `SolutionResult`.  The parameters
`max_new_facilities`, `demand_by_client` and
`min_total_open_facilities` do not influence the control flow — in the
source they only add constraints to the model handed to the backend,
which here is the constraint system `feasibleAssignment` that sound
oracles are assumed to satisfy. -/
def solve_facility_location (cm : CostMatrix) (fixed_costs : List (String × ℚ))
    (max_new_facilities : Option ℕ) (capacity_by_facility : Option (List (String × ℚ)))
    (demand_by_client : Option (List (String × ℚ)))
    (forced_open_facilities : Option (List String))
    (candidate_facilities : Option (List String))
    (min_total_open_facilities : Option ℕ) (o : Oracle) :
    Except SolveError SolutionResult :=
  let facilities := facilitiesOf fixed_costs
  let unknownForced := unknownForcedOf facilities (forcedOf forced_open_facilities)
  if unknownForced ≠ [] then .error (.unknownForced unknownForced)
  else
    let unknownCands := unknownCandsOf facilities candidate_facilities
    if unknownCands ≠ [] then .error (.unknownCandidates unknownCands)
    else
      match firstMissingCost (varCostOf cm) facilities (clientsOf cm) with
      | some fc => .error (.missingCost fc.1 fc.2)
      | none =>
        match firstMissingCapacity facilities capacity_by_facility with
        | some f => .error (.capacityKeyError f)
        | none =>
          if o.status = "Optimal" then .ok (extractResult cm fixed_costs o)
          else .error (.solverNotOptimal o.status)

/-! ## Theorems: the scenario policy (claim C3) -/

/-- C3 counterexample.  The claim says the fall-through case of the
policy passes "the scenario's limit if given, else the configured
default".  With an explicit limit of `0` and no existing network, the
source's `limite_novos_cds or default_facility_limit` treats the given
`0` as falsy and passes the default (here `2`), while the claim,
read as stated, demands `0`: the spec-literal policy and the source
disagree at this input. -/
theorem scenario_policy_zero_limit_counterexample :
    scenarioSolverParams "crescimento_10" { limite_novos_cds := some 0 } [] 2 = (2, none) ∧
    scenarioSolverParamsSpec "crescimento_10" { limite_novos_cds := some 0 } [] 2 = (0, none) ∧
    scenarioSolverParams "crescimento_10" { limite_novos_cds := some 0 } [] 2 ≠
      scenarioSolverParamsSpec "crescimento_10" { limite_novos_cds := some 0 } [] 2 := by
  refine ⟨rfl, rfl, ?_⟩
  intro h
  simp [scenarioSolverParams, scenarioSolverParamsSpec, pyOrNat] at h

/-- C3 amended.  The policy of `execute_scenario` (cli.py lines
80-88): baseline with an existing network freezes the network;
an explicit limit with an existing network forces exactly that many
new sites; otherwise the cap is the limit *when given and non-zero*
(Python truthiness) and the default otherwise, with no floor. -/
theorem scenario_policy_cases (scenario_name : String) (cfg : ScenarioConfig)
    (existing : List String) (default_limit : ℕ) :
    (scenario_name = "base" → existing ≠ [] →
      scenarioSolverParams scenario_name cfg existing default_limit
        = (0, some existing.length)) ∧
    (¬ (scenario_name = "base" ∧ existing ≠ []) → ∀ lim, cfg.limite_novos_cds = some lim →
      existing ≠ [] →
      scenarioSolverParams scenario_name cfg existing default_limit
        = (lim, some (existing.length + lim))) ∧
    (cfg.limite_novos_cds = none → ¬ (scenario_name = "base" ∧ existing ≠ []) →
      scenarioSolverParams scenario_name cfg existing default_limit
        = (default_limit, none)) ∧
    (cfg.limite_novos_cds = some 0 → existing = [] →
      scenarioSolverParams scenario_name cfg existing default_limit
        = (default_limit, none)) ∧
    (∀ lim, cfg.limite_novos_cds = some lim → lim ≠ 0 → existing = [] →
      scenarioSolverParams scenario_name cfg existing default_limit
        = (lim, none)) := by
  refine ⟨?_, ?_, ?_, ?_, ?_⟩
  · intro h1 h2
    simp [scenarioSolverParams, h1, h2]
  · intro h1 lim h2 h3
    have hb : scenario_name ≠ "base" := fun hb => h1 ⟨hb, h3⟩
    simp [scenarioSolverParams, hb, h2, h3]
  · intro h1 h2
    simp [scenarioSolverParams, h1, h2, pyOrNat]
  · intro h1 h2
    simp [scenarioSolverParams, h1, h2, pyOrNat]
  · intro lim h1 h2 h3
    simp [scenarioSolverParams, h1, h2, h3, pyOrNat]

/-- Witness for `scenario_policy_cases` at concrete inputs, one per
case. -/
theorem scenario_policy_cases_witness :
    scenarioSolverParams "base" { limite_novos_cds := none } ["E1", "E2"] 2 = (0, some 2) ∧
    scenarioSolverParams "1_novo_cd" { limite_novos_cds := some 1 } ["E1"] 2 = (1, some 2) ∧
    scenarioSolverParams "crescimento_10" { limite_novos_cds := none } [] 2 = (2, none) ∧
    scenarioSolverParams "crescimento_10" { limite_novos_cds := some 0 } [] 2 = (2, none) ∧
    scenarioSolverParams "2_novos_cds" { limite_novos_cds := some 3 } [] 2 = (3, none) := by
  refine ⟨?_, ?_, ?_, ?_, ?_⟩
  · exact (scenario_policy_cases "base" { limite_novos_cds := none } ["E1", "E2"] 2).1
      rfl (by simp)
  · exact (scenario_policy_cases "1_novo_cd" { limite_novos_cds := some 1 } ["E1"] 2).2.1
      (by simp) 1 rfl (by simp)
  · exact (scenario_policy_cases "crescimento_10" { limite_novos_cds := none } [] 2).2.2.1
      rfl (by simp)
  · exact (scenario_policy_cases "crescimento_10" { limite_novos_cds := some 0 } [] 2).2.2.2.1
      rfl rfl
  · exact (scenario_policy_cases "2_novos_cds" { limite_novos_cds := some 3 } [] 2).2.2.2.2
      3 rfl (by simp) rfl

/-! ## Theorems: occupancy clamp in the fixed-cost estimator (claim C9) -/

/-- C9.  In the fixed-cost estimator the occupancy entering the labor
component is clamped into `[0.1, 1.0]` (after the `0.75` default): the
labor cost is always computed from some occupancy in that interval,
which agrees with the reported occupancy whenever the latter is in
range; and a facility reporting occupancy `0.05` is costed exactly
like one reporting `0.1`, both row-wise and through
`estimate_fixed_costs`. -/
theorem estimate_occupancy_clamped (cfg : CostEstimationConfig) (f : FacilityRow)
    (r : RegionalRow) :
    (∃ occ : ℚ, 1/10 ≤ occ ∧ occ ≤ 1 ∧
      (estimateRow cfg f r).labor_cost = roundTo 2 (r.labor_cost_index * occ * 250000) ∧
      (∀ v, f.ocupacao = some v → 1/10 ≤ v → v ≤ 1 → occ = v)) ∧
    estimateRow cfg { f with ocupacao := some (1/20) } r
      = estimateRow cfg { f with ocupacao := some (1/10) } r ∧
    estimate_fixed_costs [{ f with ocupacao := some (1/20) }] [r] cfg
      = estimate_fixed_costs [{ f with ocupacao := some (1/10) }] [r] cfg := by
  refine ⟨⟨min 1 (max (1/10) (f.ocupacao.getD (3/4))), ?_, ?_, ?_, ?_⟩, ?_, ?_⟩
  · exact le_min (by norm_num) (le_max_left _ _)
  · exact min_le_left _ _
  · rfl
  · intro v hv h1 h2
    rw [hv]
    simp only [Option.getD_some]
    rw [max_eq_right h1, min_eq_right h2]
  · have hclamp : (max ((1:ℚ)/10) (1/20)) = max (1/10) (1/10) := by
      rw [max_eq_left (by norm_num), max_self]
    simp only [estimateRow, Option.getD_some]
    rw [hclamp]
  · have hrow : ∀ rr, estimateRow cfg { f with ocupacao := some (1/20) } rr
      = estimateRow cfg { f with ocupacao := some (1/10) } rr := by
      intro rr
      have hclamp : (max ((1:ℚ)/10) (1/20)) = max (1/10) (1/10) := by
        rw [max_eq_left (by norm_num), max_self]
      simp only [estimateRow, Option.getD_some]
      rw [hclamp]
    have hrow2 : estimateRow cfg { f with ocupacao := some (1/20) }
        = estimateRow cfg { f with ocupacao := some (1/10) } := funext hrow
    simp only [estimate_fixed_costs, List.any_cons, List.any_nil, Bool.or_false,
      List.filterMap_cons, List.filterMap_nil, hrow2]

/-- Witness for `estimate_occupancy_clamped`: a concrete facility
reporting occupancy `1/2` (in range, so the clamp is the identity on
it) and a concrete regional row. -/
theorem estimate_occupancy_clamped_witness :
    ∃ occ : ℚ, 1/10 ≤ occ ∧ occ ≤ 1 ∧
      (estimateRow {} ⟨"F1", "SP", some (1/2), none⟩ ⟨"SP", 1, 60, 1/10, 1⟩).labor_cost
        = roundTo 2 ((1 : ℚ) * occ * 250000) ∧ occ = 1/2 := by
  obtain ⟨occ, h1, h2, h3, h4⟩ :=
    (estimate_occupancy_clamped {} ⟨"F1", "SP", some (1/2), none⟩ ⟨"SP", 1, 60, 1/10, 1⟩).1
  exact ⟨occ, h1, h2, h3, h4 (1/2) rfl (by norm_num) (by norm_num)⟩

/-! ## Theorems: the cost matrix is the dense cross product (claim C5) -/

theorem flatMap_map_length {α β γ : Type} (cs : List α) (ds : List β) (k : α → β → γ) :
    (cs.flatMap fun c => ds.map (k c)).length = cs.length * ds.length := by
  induction cs with
  | nil => simp
  | cons c ct ih =>
    simp only [List.flatMap_cons, List.length_append, List.length_map, List.length_cons, ih]
    ring

theorem flatMap_map_getElem {α β γ : Type} (cs : List α) (ds : List β) (k : α → β → γ)
    (i j : ℕ) (hi : i < cs.length) (hj : j < ds.length) :
    (cs.flatMap fun c => ds.map (k c))[i * ds.length + j]? = some (k cs[i] ds[j]) := by
  induction cs generalizing i with
  | nil => simp at hi
  | cons c ct ih =>
    cases i with
    | zero =>
      have hlt : j < (List.map (k c) ds).length := by simpa using hj
      rw [List.flatMap_cons, Nat.zero_mul, Nat.zero_add, List.getElem?_append, if_pos hlt,
        List.getElem?_map, List.getElem?_eq_getElem hj]
      simp
    | succ n =>
      have hge : (ds.map (k c)).length ≤ (n + 1) * ds.length + j := by
        simp only [List.length_map]
        calc ds.length ≤ (n + 1) * ds.length := Nat.le_mul_of_pos_left _ (Nat.succ_pos n)
          _ ≤ (n + 1) * ds.length + j := Nat.le_add_right _ _
      rw [List.flatMap_cons, List.getElem?_append_right hge]
      have harith : (n + 1) * ds.length + j - (ds.map (k c)).length = n * ds.length + j := by
        simp only [List.length_map, Nat.succ_mul]
        omega
      rw [harith]
      exact ih n (Nat.lt_of_succ_lt_succ hi)

/-- C5.  `build_cost_matrix` emits exactly one row per (candidate,
demand point) pair — `cs.length * ds.length` rows, the row of pair
`(i, j)` sitting at index `i * ds.length + j` and carrying the pair's
ids; when the four coordinates are present its distance is the
geographic distance rounded to 3 decimals and its cost is
`demand * distance * tariff * (1 + tax) * wage` rounded to 2 decimals
(demand defaulting to 1, tax to 0, wage to 1); when any coordinate is
absent both fields are undefined — and, the function being total, no
exception is raised in either case. -/
theorem build_cost_matrix_cross_product (geodist : ℚ → ℚ → ℚ → ℚ → ℚ)
    (cs : List Candidate) (ds : List DemandPoint) (tarifa_km : ℚ)
    (params : Option ScenarioParams) (i j : ℕ) (hi : i < cs.length) (hj : j < ds.length) :
    (build_cost_matrix geodist cs ds tarifa_km params).length = cs.length * ds.length ∧
    ∃ r, (build_cost_matrix geodist cs ds tarifa_km params)[i * ds.length + j]? = some r ∧
      r.facility_id = cs[i].facility_id ∧ r.client_id = ds[j].client_id ∧
      (∀ dlat dlon clat clon, ds[j].lat = some dlat → ds[j].lon = some dlon →
        cs[i].lat = some clat → cs[i].lon = some clon →
        r.distance_km = some (roundTo 3 (geodist dlat dlon clat clon)) ∧
        r.freight_cost = some (roundTo 2 (ds[j].demanda.getD 1 * geodist dlat dlon clat clon *
          tarifa_km * (1 + ((params.getD ⟨none, none⟩).tributacao.getD 0)) *
          ((params.getD ⟨none, none⟩).salario_logistica.getD 1)))) ∧
      ((ds[j].lat = none ∨ ds[j].lon = none ∨ cs[i].lat = none ∨ cs[i].lon = none) →
        r.distance_km = none ∧ r.freight_cost = none) := by
  constructor
  · simpa [build_cost_matrix] using flatMap_map_length cs ds
      (costMatrixRow geodist tarifa_km ((params.getD ⟨none, none⟩).tributacao.getD 0)
        ((params.getD ⟨none, none⟩).salario_logistica.getD 1))
  · refine ⟨costMatrixRow geodist tarifa_km ((params.getD ⟨none, none⟩).tributacao.getD 0)
      ((params.getD ⟨none, none⟩).salario_logistica.getD 1) cs[i] ds[j], ?_, ?_, ?_, ?_, ?_⟩
    · simpa [build_cost_matrix] using flatMap_map_getElem cs ds
        (costMatrixRow geodist tarifa_km ((params.getD ⟨none, none⟩).tributacao.getD 0)
          ((params.getD ⟨none, none⟩).salario_logistica.getD 1)) i j hi hj
    · cases h : safe_distance_km geodist ds[j].lat ds[j].lon cs[i].lat cs[i].lon <;>
        simp [costMatrixRow, h]
    · cases h : safe_distance_km geodist ds[j].lat ds[j].lon cs[i].lat cs[i].lon <;>
        simp [costMatrixRow, h]
    · intro dlat dlon clat clon h1 h2 h3 h4
      simp [costMatrixRow, safe_distance_km, h1, h2, h3, h4, compute_freight_cost]
    · intro habs
      have h : safe_distance_km geodist ds[j].lat ds[j].lon cs[i].lat cs[i].lon = none := by
        rcases habs with h | h | h | h <;>
          · rw [h]
            cases ds[j].lat <;> cases ds[j].lon <;> cases cs[i].lat <;> cases cs[i].lon <;> rfl
      simp [costMatrixRow, h]

/-- Witness for `build_cost_matrix_cross_product`: one candidate with
coordinates, two demand points (one with coordinates and demand 5, one
with a missing latitude), constant distance function 10, tariff 2,
default scenario parameters. -/
theorem build_cost_matrix_cross_product_witness :
    ((build_cost_matrix (fun _ _ _ _ => 10) [⟨"F1", some 1, some 2⟩]
        [⟨"C1", some 3, some 4, some 5⟩, ⟨"C2", none, some 4, some 5⟩] 2 none).length = 2) ∧
    (∃ r, (build_cost_matrix (fun _ _ _ _ => 10) [⟨"F1", some 1, some 2⟩]
        [⟨"C1", some 3, some 4, some 5⟩, ⟨"C2", none, some 4, some 5⟩] 2 none)[0]? = some r ∧
      r.facility_id = "F1" ∧ r.client_id = "C1" ∧
      r.distance_km = some (roundTo 3 10) ∧ r.freight_cost = some (roundTo 2 100)) ∧
    (∃ r, (build_cost_matrix (fun _ _ _ _ => 10) [⟨"F1", some 1, some 2⟩]
        [⟨"C1", some 3, some 4, some 5⟩, ⟨"C2", none, some 4, some 5⟩] 2 none)[1]? = some r ∧
      r.distance_km = none ∧ r.freight_cost = none) := by
  refine ⟨?_, ?_, ?_⟩
  · exact (build_cost_matrix_cross_product (fun _ _ _ _ => 10) [⟨"F1", some 1, some 2⟩]
      [⟨"C1", some 3, some 4, some 5⟩, ⟨"C2", none, some 4, some 5⟩] 2 none 0 0
      (by decide) (by decide)).1
  · obtain ⟨r, hr, hfac, hcli, hdef, -⟩ :=
      (build_cost_matrix_cross_product (fun _ _ _ _ => 10) [⟨"F1", some 1, some 2⟩]
        [⟨"C1", some 3, some 4, some 5⟩, ⟨"C2", none, some 4, some 5⟩] 2 none 0 0
        (by decide) (by decide)).2
    obtain ⟨hdist, hcost⟩ := hdef 3 4 1 2 rfl rfl rfl rfl
    refine ⟨r, by simpa using hr, hfac, hcli, hdist, ?_⟩
    rw [hcost]
    norm_num
  · obtain ⟨r, hr, -, -, -, habs⟩ :=
      (build_cost_matrix_cross_product (fun _ _ _ _ => 10) [⟨"F1", some 1, some 2⟩]
        [⟨"C1", some 3, some 4, some 5⟩, ⟨"C2", none, some 4, some 5⟩] 2 none 0 1
      (by decide) (by decide)).2
    obtain ⟨hdist, hcost⟩ := habs (Or.inl rfl)
    exact ⟨r, by simpa using hr, hdist, hcost⟩

/-! ## Helper lemmas about the solver embedding -/

theorem sortBy_eq_nil_iff (le : α → α → Bool) (l : List α) : sortBy le l = [] ↔ l = [] := by
  constructor
  · intro h
    have hperm := sortBy_perm le l
    rw [h] at hperm
    exact hperm.symm.eq_nil
  · intro h
    rw [h]
    rfl

theorem lookup_isSome_iff {β : Type} (l : List (String × β)) (a : String) :
    (l.lookup a).isSome = true ↔ ∃ b, (a, b) ∈ l := by
  induction l with
  | nil => simp [List.lookup]
  | cons p t ih =>
    obtain ⟨k, v⟩ := p
    by_cases h : a = k
    · subst h
      simp [List.lookup_cons]
    · have hbeq : (a == k) = false := by simpa using h
      simp [List.lookup_cons, hbeq, ih, h]

theorem firstMissingCost_eq_none_iff (vc : String → String → Option ℚ)
    (facilities cls : List String) :
    firstMissingCost vc facilities cls = none ↔
      ∀ c ∈ cls, ∀ f ∈ facilities, (vc f c).isSome = true := by
  induction cls with
  | nil => simp [firstMissingCost]
  | cons c t ih =>
    simp only [firstMissingCost]
    cases hfind : facilities.find? (fun f => (vc f c).isNone) with
    | some f =>
      have hf : f ∈ facilities := List.mem_of_find?_eq_some hfind
      have hnone : (vc f c) = none := by
        have := List.find?_some hfind
        simpa [Option.isNone_iff_eq_none] using this
      constructor
      · intro h
        cases h
      · intro h
        have := h c (List.mem_cons_self c t) f hf
        rw [hnone] at this
        cases this
    | none =>
      have hall : ∀ f ∈ facilities, (vc f c).isSome = true := by
        intro f hf
        have := List.find?_eq_none.mp hfind f hf
        simpa [Option.isNone_iff_eq_none, Option.isSome_iff_ne_none] using this
      rw [ih]
      constructor
      · intro h c' hc'
        rcases List.mem_cons.mp hc' with rfl | hc'
        · exact hall
        · exact h c' hc'
      · intro h c' hc'
        exact h c' (List.mem_cons_of_mem c hc')

theorem firstMissingCost_eq_some (vc : String → String → Option ℚ)
    (facilities cls : List String) (f c : String)
    (h : firstMissingCost vc facilities cls = some (f, c)) :
    f ∈ facilities ∧ c ∈ cls ∧ vc f c = none := by
  induction cls with
  | nil => cases h
  | cons c0 t ih =>
    rw [firstMissingCost] at h
    cases hfind : facilities.find? (fun ff => (vc ff c0).isNone) with
    | some f0 =>
      rw [hfind] at h
      simp only [Option.some.injEq, Prod.mk.injEq] at h
      obtain ⟨h1, h2⟩ := h
      subst h1
      subst h2
      refine ⟨List.mem_of_find?_eq_some hfind, List.mem_cons_self _ _, ?_⟩
      have := List.find?_some hfind
      simpa [Option.isNone_iff_eq_none] using this
    | none =>
      rw [hfind] at h
      obtain ⟨h1, h2, h3⟩ := ih h
      exact ⟨h1, List.mem_cons_of_mem _ h2, h3⟩

theorem firstMissingCapacity_eq_none (facilities : List String) (cap : List (String × ℚ))
    (h : ∀ f ∈ facilities, ∃ q, (f, q) ∈ cap) :
    firstMissingCapacity facilities (some cap) = none := by
  simp only [firstMissingCapacity]
  rw [List.find?_eq_none]
  intro f hf
  obtain ⟨q, hq⟩ := h f hf
  have : ((cap.reverse).lookup f).isSome = true :=
    (lookup_isSome_iff cap.reverse f).mpr ⟨q, by simpa using hq⟩
  simp only [Option.isNone_iff_eq_none]
  intro hc
  rw [hc] at this
  cases this

theorem mem_of_getLast?_eq_some {α : Type} {l : List α} {a : α} (h : l.getLast? = some a) :
    a ∈ l := by
  induction l with
  | nil => cases h
  | cons b t ih =>
    cases t with
    | nil =>
      simp only [List.getLast?_singleton, Option.some.injEq] at h
      simp [h]
    | cons b2 t2 =>
      rw [List.getLast?_cons_cons] at h
      exact List.mem_cons_of_mem b (ih h)

theorem sum_mul_ite (l : List String) (w : String → ℚ) (p : String → Bool) :
    (l.map fun a => w a * (if p a then 1 else 0)).sum = ((l.filter p).map w).sum := by
  induction l with
  | nil => rfl
  | cons a t ih =>
    simp only [List.map_cons, List.sum_cons]
    rw [ih, List.filter_cons]
    by_cases h : p a = true <;> simp [h]

theorem objective_var_eq_alloc_sum (facilities : List String) (x : String → String → Bool)
    (w : String → String → ℚ) (cls : List String)
    (h : ∀ c ∈ cls, facilities.countP (fun f => x c f) = 1) :
    (cls.map fun c => ((facilities.map fun f => w f c * (if x c f then 1 else 0)).sum)).sum
      = ((cls.filterMap fun c =>
          ((facilities.filter fun f => x c f).getLast?).map fun f => (c, f)).map
            fun p => w p.2 p.1).sum := by
  induction cls with
  | nil => rfl
  | cons c t ih =>
    obtain ⟨f0, hf0⟩ := List.length_eq_one.mp (by
      rw [← List.countP_eq_length_filter]
      exact h c (List.mem_cons_self c t))
    have ht := ih (fun c' hc' => h c' (List.mem_cons_of_mem c hc'))
    simp only [List.map_cons, List.sum_cons, List.filterMap_cons]
    rw [sum_mul_ite facilities (fun f => w f c) (fun f => x c f), hf0, ht]
    simp

theorem alloc_keys_eq_clients (facilities : List String) (x : String → String → Bool)
    (cls : List String) (h : ∀ c ∈ cls, (facilities.filter fun f => x c f) ≠ []) :
    (cls.filterMap fun c =>
      ((facilities.filter fun f => x c f).getLast?).map fun f => (c, f)).map Prod.fst = cls := by
  induction cls with
  | nil => rfl
  | cons c t ih =>
    have hne := h c (List.mem_cons_self c t)
    cases hlast : (facilities.filter fun f => x c f).getLast? with
    | none => exact absurd (List.getLast?_eq_none_iff.mp hlast) hne
    | some f0 =>
      have hg : (Option.map (fun f => (c, f))
          (List.filter (fun f => x c f) facilities).getLast?) = some (c, f0) := by
        rw [hlast]
        rfl
      simp only [List.filterMap_cons, hg, List.map_cons]
      rw [ih (fun c' hc' => h c' (List.mem_cons_of_mem c hc'))]

/-- If `solve_facility_location` returns a result, the oracle reported
`"Optimal"`, the result is the extraction from the oracle's values,
all the pre-solve validations passed, and in particular every
forced-open id exists in the fixed-cost table. -/
theorem solve_ok_elim {cm : CostMatrix} {fixed_costs : List (String × ℚ)}
    {mn : Option ℕ} {cap : Option (List (String × ℚ))} {dem : Option (List (String × ℚ))}
    {fo cf : Option (List String)} {mt : Option ℕ} {o : Oracle} {res : SolutionResult}
    (h : solve_facility_location cm fixed_costs mn cap dem fo cf mt o = .ok res) :
    o.status = "Optimal" ∧ res = extractResult cm fixed_costs o ∧
      (∀ f ∈ forcedOf fo, (facilitiesOf fixed_costs).contains f = true) := by
  simp only [solve_facility_location] at h
  cases hu1 : unknownForcedOf (facilitiesOf fixed_costs) (forcedOf fo) with
  | cons a l =>
    rw [hu1] at h
    simp only [ne_eq, reduceCtorEq, not_false_eq_true, if_true, reduceCtorEq] at h
  | nil =>
    rw [hu1] at h
    simp only [ne_eq, not_true_eq_false, if_false] at h
    have hforced : ∀ f ∈ forcedOf fo, (facilitiesOf fixed_costs).contains f = true := by
      intro f hf
      have hnil : (forcedOf fo).filter
          (fun f => ! (facilitiesOf fixed_costs).contains f) = [] := by
        rw [unknownForcedOf] at hu1
        exact (sortBy_eq_nil_iff strLe _).mp hu1
      have := List.filter_eq_nil_iff.mp hnil f hf
      simpa using this
    cases hu2 : unknownCandsOf (facilitiesOf fixed_costs) cf with
    | cons a l =>
      rw [hu2] at h
      simp only [ne_eq, reduceCtorEq, not_false_eq_true, if_true, reduceCtorEq] at h
    | nil =>
      rw [hu2] at h
      simp only [ne_eq, not_true_eq_false, if_false] at h
      cases hmc : firstMissingCost (varCostOf cm) (facilitiesOf fixed_costs) (clientsOf cm) with
      | some fc =>
        rw [hmc] at h
        exact Except.noConfusion h
      | none =>
        rw [hmc] at h
        cases hcap : firstMissingCapacity (facilitiesOf fixed_costs) cap with
        | some f =>
          rw [hcap] at h
          exact Except.noConfusion h
        | none =>
          rw [hcap] at h
          by_cases hst : o.status = "Optimal"
          · rw [if_pos hst] at h
            refine ⟨hst, ?_, hforced⟩
            cases h
            rfl
          · rw [if_neg hst] at h
            exact Except.noConfusion h

theorem extractResult_accounting (cm : CostMatrix) (fixed_costs : List (String × ℚ))
    (o : Oracle)
    (h1 : ∀ c ∈ clientsOf cm, (facilitiesOf fixed_costs).countP (fun f => o.x c f) = 1) :
    (extractResult cm fixed_costs o).total_cost
      = (extractResult cm fixed_costs o).fixed_cost
        + (extractResult cm fixed_costs o).variable_cost := by
  simp only [extractResult, objectiveValue]
  rw [sum_mul_ite (facilitiesOf fixed_costs) (fixedCostOf fixed_costs) (fun f => o.y f)]
  rw [objective_var_eq_alloc_sum (facilitiesOf fixed_costs) o.x
    (fun f c => (varCostOf cm f c).getD 0) (clientsOf cm) h1]
  ring

/-! ## Theorems: cost accounting of a solved instance (claim C4) -/

/-- C4.  Whenever `solve_facility_location` returns a result (so the
backend reported `"Optimal"`; its values are assumed to satisfy the
model it was handed — what an exact MILP solver guarantees), the
reported fixed cost is the sum of the fixed costs of the open
facilities, the reported variable cost is the sum of the chosen edges'
variable costs over the allocation, and the reported total — the
solver's objective value — equals fixed + variable exactly, hence
within the 1e-6 tolerance. -/
theorem solve_cost_accounting {cm : CostMatrix} {fixed_costs : List (String × ℚ)}
    {mn : Option ℕ} {cap : Option (List (String × ℚ))} {dem : Option (List (String × ℚ))}
    {fo cf : Option (List String)} {mt : Option ℕ} {o : Oracle} {res : SolutionResult}
    (h : solve_facility_location cm fixed_costs mn cap dem fo cf mt o = .ok res)
    (hsound : o.status = "Optimal" →
      feasibleAssignment (facilitiesOf fixed_costs) (clientsOf cm) (forcedOf fo)
        (candidateSetOf (facilitiesOf fixed_costs) (forcedOf fo) cf)
        (demandOfClient cm dem) cap mn mt o.y o.x) :
    res.fixed_cost = (res.open_facilities.map (fixedCostOf fixed_costs)).sum ∧
    res.variable_cost = (res.allocation.map (fun p => (varCostOf cm p.2 p.1).getD 0)).sum ∧
    res.total_cost = res.fixed_cost + res.variable_cost ∧
    |res.total_cost - (res.fixed_cost + res.variable_cost)| ≤ 1 / 1000000 := by
  obtain ⟨hst, hres, -⟩ := solve_ok_elim h
  obtain ⟨hcount, -, -, -, -, -⟩ := hsound hst
  subst hres
  refine ⟨rfl, rfl, ?_, ?_⟩
  · exact extractResult_accounting cm fixed_costs o hcount
  · rw [extractResult_accounting cm fixed_costs o hcount]
    simp only [sub_self, abs_zero]
    norm_num

/-- The instance of the repository's own solver test: facilities `F1`
(fixed 1) and `F2` (fixed 10), two clients, and the optimal oracle
opening `F1` only. -/
def demoCostMatrix : CostMatrix :=
  ⟨[⟨"F1", "C1", some 1, 1⟩, ⟨"F2", "C1", some 5, 1⟩,
    ⟨"F1", "C2", some 5, 1⟩, ⟨"F2", "C2", some 1, 1⟩], false⟩

/-- Fixed costs of the demo instance. -/
def demoFixedCosts : List (String × ℚ) := [("F1", 1), ("F2", 10)]

/-- The oracle reporting the demo instance's optimal solution. -/
def demoOracle : Oracle := ⟨"Optimal", fun f => f == "F1", fun _ f => f == "F1"⟩

/-- Witness for `solve_cost_accounting` on the demo instance. -/
theorem solve_cost_accounting_witness :
    solve_facility_location demoCostMatrix demoFixedCosts (some 1) none none none none none
        demoOracle = .ok (extractResult demoCostMatrix demoFixedCosts demoOracle) ∧
    (extractResult demoCostMatrix demoFixedCosts demoOracle).total_cost
      = (extractResult demoCostMatrix demoFixedCosts demoOracle).fixed_cost
        + (extractResult demoCostMatrix demoFixedCosts demoOracle).variable_cost := by
  have hsolve : solve_facility_location demoCostMatrix demoFixedCosts (some 1) none none none
      none none demoOracle
      = .ok (extractResult demoCostMatrix demoFixedCosts demoOracle) := rfl
  exact ⟨hsolve, (solve_cost_accounting hsolve (fun _ => by decide)).2.2.1⟩

/-! ## Theorems: allocation invariants of a solved instance (claim C7) -/

/-- C7.  Whenever `solve_facility_location` returns a result (under
the same oracle-soundness assumption as `solve_cost_accounting`):
every client id of the cost matrix appears exactly once as an
allocation key, every allocated facility is open, and every
forced-open id is open. -/
theorem solve_allocation_invariants {cm : CostMatrix} {fixed_costs : List (String × ℚ)}
    {mn : Option ℕ} {cap : Option (List (String × ℚ))} {dem : Option (List (String × ℚ))}
    {fo cf : Option (List String)} {mt : Option ℕ} {o : Oracle} {res : SolutionResult}
    (h : solve_facility_location cm fixed_costs mn cap dem fo cf mt o = .ok res)
    (hsound : o.status = "Optimal" →
      feasibleAssignment (facilitiesOf fixed_costs) (clientsOf cm) (forcedOf fo)
        (candidateSetOf (facilitiesOf fixed_costs) (forcedOf fo) cf)
        (demandOfClient cm dem) cap mn mt o.y o.x) :
    (∀ c ∈ cm.rows.map (fun r => r.client_id), (res.allocation.map Prod.fst).count c = 1) ∧
    (∀ p ∈ res.allocation, p.2 ∈ res.open_facilities) ∧
    (∀ f ∈ fo.getD [], f ∈ res.open_facilities) := by
  obtain ⟨hst, hres, hforcedmem⟩ := solve_ok_elim h
  obtain ⟨hcount, himpl, hforced, -, -, -⟩ := hsound hst
  subst hres
  have hkeys : ((extractResult cm fixed_costs o).allocation.map Prod.fst) = clientsOf cm := by
    apply alloc_keys_eq_clients
    intro c' hc' hnil
    have hc1 := hcount c' hc'
    rw [List.countP_eq_length_filter, hnil] at hc1
    cases hc1
  refine ⟨?_, ?_, ?_⟩
  · intro c hc
    rw [hkeys]
    have hmemdedup : c ∈ (cm.rows.map (fun r => r.client_id)).dedup := List.mem_dedup.mpr hc
    have hperm := sortBy_perm strLe ((cm.rows.map (fun r => r.client_id)).dedup)
    have hmem : c ∈ clientsOf cm := by
      rw [clientsOf]
      exact hperm.mem_iff.mpr hmemdedup
    have hnodup : (clientsOf cm).Nodup := by
      rw [clientsOf]
      exact hperm.symm.nodup (List.nodup_dedup _)
    exact List.count_eq_one_of_mem hnodup hmem
  · intro p hp
    simp only [extractResult] at hp ⊢
    obtain ⟨c, hc, hpc⟩ := List.mem_filterMap.mp hp
    cases hlast : (List.filter (fun f => o.x c f) (facilitiesOf fixed_costs)).getLast? with
    | none =>
      rw [hlast] at hpc
      cases hpc
    | some f0 =>
      rw [hlast] at hpc
      simp only [Option.map_some', Option.some.injEq] at hpc
      have hf0 : f0 ∈ List.filter (fun f => o.x c f) (facilitiesOf fixed_costs) :=
        mem_of_getLast?_eq_some hlast
      obtain ⟨hf0mem, hf0x⟩ := List.mem_filter.mp hf0
      have hy := himpl c hc f0 hf0mem hf0x
      rw [← hpc]
      exact List.mem_filter.mpr ⟨hf0mem, hy⟩
  · intro f hf
    have hfd : f ∈ forcedOf fo := by
      rw [forcedOf]
      exact List.mem_dedup.mpr (by simpa using hf)
    have hy := hforced f hfd
    have hmem : f ∈ facilitiesOf fixed_costs := by
      have := hforcedmem f hfd
      simpa [List.elem_iff] using this
    simp only [extractResult]
    exact List.mem_filter.mpr ⟨hmem, hy⟩

/-- Witness for `solve_allocation_invariants` on the demo instance:
with `F2` forced open, both clients allocated, the allocated facility
open, and the forced facility open. -/
theorem solve_allocation_invariants_witness :
    solve_facility_location demoCostMatrix demoFixedCosts none none none (some ["F2"]) none none
        ⟨"Optimal", fun f => f == "F2", fun _ f => f == "F2"⟩
      = .ok (extractResult demoCostMatrix demoFixedCosts
          ⟨"Optimal", fun f => f == "F2", fun _ f => f == "F2"⟩) ∧
    (∀ c ∈ demoCostMatrix.rows.map (fun r => r.client_id),
      ((extractResult demoCostMatrix demoFixedCosts
          ⟨"Optimal", fun f => f == "F2", fun _ f => f == "F2"⟩).allocation.map
            Prod.fst).count c = 1) ∧
    (∀ f ∈ ((some ["F2"] : Option (List String)).getD []),
      f ∈ (extractResult demoCostMatrix demoFixedCosts
          ⟨"Optimal", fun f => f == "F2", fun _ f => f == "F2"⟩).open_facilities) := by
  have hsolve : solve_facility_location demoCostMatrix demoFixedCosts none none none
      (some ["F2"]) none none ⟨"Optimal", fun f => f == "F2", fun _ f => f == "F2"⟩
      = .ok (extractResult demoCostMatrix demoFixedCosts
          ⟨"Optimal", fun f => f == "F2", fun _ f => f == "F2"⟩) := rfl
  obtain ⟨hcnt, -, hopen⟩ := solve_allocation_invariants hsolve (fun _ => by decide)
  exact ⟨hsolve, hcnt, hopen⟩

/-! ## Theorems: missing-cost completeness check (claim C6) -/

/-- C6.  If some pair of the full cross product (fixed-cost facilities
× cost-matrix clients) has no defined cost — no row at all or a row
whose cost is undefined (`NaN` from a missing geolocation at
matrix-build time, dropped by the dict's `dropna`) — then, provided
the forced/candidate id validations that precede it pass, the call
fails with the hard error naming a missing facility/client pair, for
every oracle: the failure happens before any solve attempt. -/
theorem solve_missing_cost_fatal {cm : CostMatrix} {fixed_costs : List (String × ℚ)}
    {mn : Option ℕ} {cap : Option (List (String × ℚ))} {dem : Option (List (String × ℚ))}
    {fo cf : Option (List String)} {mt : Option ℕ}
    (h1 : ∀ f ∈ forcedOf fo, f ∈ facilitiesOf fixed_costs)
    (h2 : ∀ cs ∈ cf, ∀ f ∈ cs, f ∈ facilitiesOf fixed_costs)
    (hmiss : ∃ f ∈ facilitiesOf fixed_costs, ∃ c ∈ clientsOf cm, varCostOf cm f c = none) :
    ∃ f c, f ∈ facilitiesOf fixed_costs ∧ c ∈ clientsOf cm ∧ varCostOf cm f c = none ∧
      ∀ o : Oracle, solve_facility_location cm fixed_costs mn cap dem fo cf mt o
        = .error (.missingCost f c) := by
  have hu1 : unknownForcedOf (facilitiesOf fixed_costs) (forcedOf fo) = [] := by
    rw [unknownForcedOf, sortBy_eq_nil_iff, List.filter_eq_nil_iff]
    intro a ha
    simpa using h1 a ha
  have hu2 : unknownCandsOf (facilitiesOf fixed_costs) cf = [] := by
    cases cf with
    | none => rfl
    | some cs =>
      rw [unknownCandsOf, sortBy_eq_nil_iff, List.filter_eq_nil_iff]
      intro a ha
      simpa using h2 cs rfl a (List.mem_dedup.mp ha)
  cases hmc : firstMissingCost (varCostOf cm) (facilitiesOf fixed_costs) (clientsOf cm) with
  | none =>
    exfalso
    obtain ⟨f, hf, c, hc, hvc⟩ := hmiss
    have := (firstMissingCost_eq_none_iff _ _ _).mp hmc c hc f hf
    rw [hvc] at this
    cases this
  | some fc =>
    obtain ⟨f, c⟩ := fc
    obtain ⟨hfmem, hcmem, hvc⟩ := firstMissingCost_eq_some _ _ _ f c hmc
    refine ⟨f, c, hfmem, hcmem, hvc, ?_⟩
    intro o
    simp only [solve_facility_location, hu1, hu2, hmc, ne_eq, not_true_eq_false, if_false]

/-- Witness for `solve_missing_cost_fatal`: the `F2`-to-`C1` edge has
an undefined cost, and the call fails naming it, independently of the
oracle. -/
theorem solve_missing_cost_fatal_witness :
    ∃ f c, f ∈ facilitiesOf demoFixedCosts
      ∧ c ∈ clientsOf ⟨[⟨"F1", "C1", some 1, 1⟩, ⟨"F2", "C1", none, 1⟩], false⟩
      ∧ varCostOf ⟨[⟨"F1", "C1", some 1, 1⟩, ⟨"F2", "C1", none, 1⟩], false⟩ f c = none
      ∧ ∀ o : Oracle, solve_facility_location
          ⟨[⟨"F1", "C1", some 1, 1⟩, ⟨"F2", "C1", none, 1⟩], false⟩ demoFixedCosts
          none none none none none none o = .error (.missingCost f c) := by
  exact solve_missing_cost_fatal (by simp [forcedOf]) (by simp)
    ⟨"F2", by decide, "C1", by decide, by decide⟩

/-! ## Theorems: non-optimal backend status is fatal (claim C8) -/

/-- C8.  When every pre-solve validation passes (so the call reaches
the backend), any status other than `"Optimal"` makes the call fail
with a `RuntimeError` carrying exactly the reported status string —
it never returns a `SolutionResult`. -/
theorem solve_non_optimal_fatal {cm : CostMatrix} {fixed_costs : List (String × ℚ)}
    {mn : Option ℕ} {cap : Option (List (String × ℚ))} {dem : Option (List (String × ℚ))}
    {fo cf : Option (List String)} {mt : Option ℕ} (o : Oracle)
    (h1 : ∀ f ∈ forcedOf fo, f ∈ facilitiesOf fixed_costs)
    (h2 : ∀ cs ∈ cf, ∀ f ∈ cs, f ∈ facilitiesOf fixed_costs)
    (h3 : ∀ c ∈ clientsOf cm, ∀ f ∈ facilitiesOf fixed_costs, (varCostOf cm f c).isSome = true)
    (h4 : ∀ cap' ∈ cap, ∀ f ∈ facilitiesOf fixed_costs, ∃ q, (f, q) ∈ cap')
    (h5 : o.status ≠ "Optimal") :
    solve_facility_location cm fixed_costs mn cap dem fo cf mt o
      = .error (.solverNotOptimal o.status) := by
  have hu1 : unknownForcedOf (facilitiesOf fixed_costs) (forcedOf fo) = [] := by
    rw [unknownForcedOf, sortBy_eq_nil_iff, List.filter_eq_nil_iff]
    intro a ha
    simpa using h1 a ha
  have hu2 : unknownCandsOf (facilitiesOf fixed_costs) cf = [] := by
    cases cf with
    | none => rfl
    | some cs =>
      rw [unknownCandsOf, sortBy_eq_nil_iff, List.filter_eq_nil_iff]
      intro a ha
      simpa using h2 cs rfl a (List.mem_dedup.mp ha)
  have hmc : firstMissingCost (varCostOf cm) (facilitiesOf fixed_costs) (clientsOf cm)
      = none := (firstMissingCost_eq_none_iff _ _ _).mpr h3
  have hcap : firstMissingCapacity (facilitiesOf fixed_costs) cap = none := by
    cases cap with
    | none => rfl
    | some cap' => exact firstMissingCapacity_eq_none _ _ (h4 cap' rfl)
  simp only [solve_facility_location, hu1, hu2, hmc, hcap, ne_eq, not_true_eq_false,
    if_false, if_neg h5]

/-- Witness for `solve_non_optimal_fatal`: an `"Infeasible"` status on
the demo instance surfaces as the fatal solver error. -/
theorem solve_non_optimal_fatal_witness :
    solve_facility_location demoCostMatrix demoFixedCosts none none none none none none
        ⟨"Infeasible", fun _ => false, fun _ _ => false⟩
      = .error (.solverNotOptimal "Infeasible") := by
  exact solve_non_optimal_fatal ⟨"Infeasible", fun _ => false, fun _ _ => false⟩
    (by simp [forcedOf]) (by simp) (by decide) (by simp) (by decide)

/-! ## Theorems: an incomplete capacity map is a lookup error (claim C10) -/

/-- C10.  If a capacity map is supplied but lacks an entry for some
facility of the fixed-cost table (and the checks that precede the
capacity loop pass), the call fails with the `KeyError` naming such a
facility — for every oracle, so before any solve attempt — instead of
treating the facility as uncapacitated. -/
theorem solve_capacity_key_error {cm : CostMatrix} {fixed_costs : List (String × ℚ)}
    {mn : Option ℕ} {dem : Option (List (String × ℚ))}
    {fo cf : Option (List String)} {mt : Option ℕ} (cap : List (String × ℚ))
    (h1 : ∀ f ∈ forcedOf fo, f ∈ facilitiesOf fixed_costs)
    (h2 : ∀ cs ∈ cf, ∀ f ∈ cs, f ∈ facilitiesOf fixed_costs)
    (h3 : ∀ c ∈ clientsOf cm, ∀ f ∈ facilitiesOf fixed_costs, (varCostOf cm f c).isSome = true)
    (hmiss : ∃ f ∈ facilitiesOf fixed_costs, ∀ q : ℚ, (f, q) ∉ cap) :
    ∃ f, f ∈ facilitiesOf fixed_costs ∧ (∀ q : ℚ, (f, q) ∉ cap) ∧
      ∀ o : Oracle, solve_facility_location cm fixed_costs mn (some cap) dem fo cf mt o
        = .error (.capacityKeyError f) := by
  have hu1 : unknownForcedOf (facilitiesOf fixed_costs) (forcedOf fo) = [] := by
    rw [unknownForcedOf, sortBy_eq_nil_iff, List.filter_eq_nil_iff]
    intro a ha
    simpa using h1 a ha
  have hu2 : unknownCandsOf (facilitiesOf fixed_costs) cf = [] := by
    cases cf with
    | none => rfl
    | some cs =>
      rw [unknownCandsOf, sortBy_eq_nil_iff, List.filter_eq_nil_iff]
      intro a ha
      simpa using h2 cs rfl a (List.mem_dedup.mp ha)
  have hmc : firstMissingCost (varCostOf cm) (facilitiesOf fixed_costs) (clientsOf cm)
      = none := (firstMissingCost_eq_none_iff _ _ _).mpr h3
  obtain ⟨f0, hf0, hq0⟩ := hmiss
  have hp0 : ((cap.reverse).lookup f0).isNone = true := by
    cases hlk : (cap.reverse).lookup f0 with
    | none => rfl
    | some q =>
      exfalso
      have hs : ((cap.reverse).lookup f0).isSome = true := by
        rw [hlk]
        rfl
      obtain ⟨b, hb⟩ := (lookup_isSome_iff _ _).mp hs
      exact hq0 b (List.mem_reverse.mp hb)
  have hfind : (List.find? (fun f => ((cap.reverse).lookup f).isNone)
      (facilitiesOf fixed_costs)).isSome = true :=
    List.find?_isSome.mpr ⟨f0, hf0, hp0⟩
  obtain ⟨f, hf⟩ := Option.isSome_iff_exists.mp hfind
  have hfmem : f ∈ facilitiesOf fixed_costs := List.mem_of_find?_eq_some hf
  have hfnone : ((cap.reverse).lookup f) = none := by
    have := List.find?_some hf
    simpa [Option.isNone_iff_eq_none] using this
  have hfnotin : ∀ q : ℚ, (f, q) ∉ cap := by
    intro q hq
    have hs : ((cap.reverse).lookup f).isSome = true :=
      (lookup_isSome_iff _ _).mpr ⟨q, List.mem_reverse.mpr hq⟩
    rw [hfnone] at hs
    cases hs
  refine ⟨f, hfmem, hfnotin, ?_⟩
  intro o
  have hcap : firstMissingCapacity (facilitiesOf fixed_costs) (some cap) = some f := by
    rw [firstMissingCapacity]
    exact hf
  simp only [solve_facility_location, hu1, hu2, hmc, hcap, ne_eq, not_true_eq_false, if_false]

/-- Witness for `solve_capacity_key_error`: a capacity map covering
only `F1` fails naming the uncovered facility `F2`. -/
theorem solve_capacity_key_error_witness :
    ∃ f, f ∈ facilitiesOf demoFixedCosts ∧ (∀ q : ℚ, (f, q) ∉ [(("F1" : String), (5 : ℚ))]) ∧
      ∀ o : Oracle, solve_facility_location demoCostMatrix demoFixedCosts none
          (some [("F1", 5)]) none none none none o = .error (.capacityKeyError f) := by
  exact solve_capacity_key_error [("F1", 5)] (by simp [forcedOf]) (by simp) (by decide)
    ⟨"F2", by decide, fun q hq => by
      simp only [List.mem_singleton, Prod.mk.injEq] at hq
      exact absurd hq.1 (by decide)⟩

/-! ## Theorems: the forced∩candidate conflict (claims C1 and C2)

The spec demands a configuration error when
`forced_open_facilities ∩ candidate_facilities` exceeds
`max_new_facilities`, and the silent removal of forced members from
the candidate set otherwise.  The corresponding code of the source is
inert (see the header note): the executable body performs neither, so
the conflicting combination sails past every validation, yields an
infeasible model and dies at solve time as a `RuntimeError`, and a
forced-open member of an explicit candidate list keeps consuming the
new-openings cap. -/

/-- The claim C1 conflict instance: facilities `A`, `B`, `C`, one
client `D1`, all edges defined. -/
def conflictCostMatrix : CostMatrix :=
  ⟨[⟨"A", "D1", some 0, 1⟩, ⟨"B", "D1", some 0, 1⟩, ⟨"C", "D1", some 0, 1⟩], false⟩

/-- Fixed costs of the conflict instance. -/
def conflictFixedCosts : List (String × ℚ) := [("A", 0), ("B", 0), ("C", 0)]

/-- C1, on the code as it executes.  On the claim's own instance —
forced `[A, B]`, candidates `[A, B, C]`, `max_new_facilities = 1` —
no configuration error is raised: the call passes every validation and
reaches the backend, whose model is infeasible (the forced constraints
`y_A = y_B = 1` clash with the cap `y_A + y_B + y_C ≤ 1`), so for
every sound oracle the call returns the solve-time `RuntimeError`
carrying the backend's status — not the pre-solve `ValueError` the
claim requires. -/
theorem conflict_reaches_solver_as_infeasible (o : Oracle)
    (hsound : o.status = "Optimal" →
      feasibleAssignment (facilitiesOf conflictFixedCosts) (clientsOf conflictCostMatrix)
        (forcedOf (some ["A", "B"]))
        (candidateSetOf (facilitiesOf conflictFixedCosts) (forcedOf (some ["A", "B"]))
          (some ["A", "B", "C"]))
        (demandOfClient conflictCostMatrix none) none (some 1) none o.y o.x) :
    solve_facility_location conflictCostMatrix conflictFixedCosts (some 1) none none
        (some ["A", "B"]) (some ["A", "B", "C"]) none o
      = .error (.solverNotOptimal o.status) := by
  have hst : o.status ≠ "Optimal" := by
    intro hopt
    obtain ⟨-, -, hforced, -, hcap, -⟩ := hsound hopt
    have hA : o.y "A" = true := hforced "A" (by decide)
    have hB : o.y "B" = true := hforced "B" (by decide)
    have hle := hcap 1 rfl
    have hcs : candidateSetOf (facilitiesOf conflictFixedCosts) (forcedOf (some ["A", "B"]))
        (some ["A", "B", "C"]) = ["A", "B", "C"] := rfl
    rw [hcs] at hle
    simp only [List.countP_cons, List.countP_nil, hA, hB, if_true] at hle
    omega
  have hu1 : unknownForcedOf (facilitiesOf conflictFixedCosts)
      (forcedOf (some ["A", "B"])) = [] := rfl
  have hu2 : unknownCandsOf (facilitiesOf conflictFixedCosts)
      (some ["A", "B", "C"]) = [] := rfl
  have hmc : firstMissingCost (varCostOf conflictCostMatrix) (facilitiesOf conflictFixedCosts)
      (clientsOf conflictCostMatrix) = none := rfl
  have hcap : firstMissingCapacity (facilitiesOf conflictFixedCosts)
      (none : Option (List (String × ℚ))) = none := rfl
  simp only [solve_facility_location, hu1, hu2, hmc, hcap, ne_eq, not_true_eq_false,
    if_false, if_neg hst]

/-- Witness for `conflict_reaches_solver_as_infeasible`: CBC reports
`"Infeasible"` on this model, and the call surfaces exactly that as a
solver error. -/
theorem conflict_reaches_solver_as_infeasible_witness :
    solve_facility_location conflictCostMatrix conflictFixedCosts (some 1) none none
        (some ["A", "B"]) (some ["A", "B", "C"]) none
        ⟨"Infeasible", fun _ => false, fun _ _ => false⟩
      = .error (.solverNotOptimal "Infeasible") :=
  conflict_reaches_solver_as_infeasible ⟨"Infeasible", fun _ => false, fun _ _ => false⟩
    (fun h => absurd h (by decide))

/-- The claim C2 instance: facilities `A` (forced) and `B`, explicit
candidates `[A, B]` overlapping the forced set, cap 1, one client. -/
def capDemoFixedCosts : List (String × ℚ) := [("A", 0), ("B", 0)]

/-- Cost matrix of the C2 instance. -/
def capDemoCostMatrix : CostMatrix :=
  ⟨[⟨"A", "D1", some 0, 1⟩, ⟨"B", "D1", some 0, 1⟩], false⟩

/-- C2, on the code as it executes.  With forced `[A]`, explicit
candidates `[A, B]` (intersection of size 1, not exceeding the cap 1):
(i) the candidate set used in the model still contains the forced-open
`A` — nothing is removed before the model is built; (ii) consequently
the cap constraint `Σ_{f ∈ {A, B}} open[f] ≤ 1` together with the
forced `open[A] = 1` forces `open[B] = 0` in every feasible
assignment — the forced-open site does count against the cap; whereas
(iii) under the claim's semantics (candidate set `[B]` after removal)
an assignment opening `B` as the one new site is feasible. -/
theorem forced_counts_against_cap :
    (candidateSetOf (facilitiesOf capDemoFixedCosts) (forcedOf (some ["A"])) (some ["A", "B"])
        = ["A", "B"] ∧ "A" ∈ forcedOf (some ["A"])) ∧
    (∀ y x, feasibleAssignment (facilitiesOf capDemoFixedCosts) (clientsOf capDemoCostMatrix)
        (forcedOf (some ["A"]))
        (candidateSetOf (facilitiesOf capDemoFixedCosts) (forcedOf (some ["A"]))
          (some ["A", "B"]))
        (demandOfClient capDemoCostMatrix none) none (some 1) none y x →
      y "B" = false) ∧
    feasibleAssignment (facilitiesOf capDemoFixedCosts) (clientsOf capDemoCostMatrix)
      (forcedOf (some ["A"])) ["B"]
      (demandOfClient capDemoCostMatrix none) none (some 1) none
      (fun f => f == "A" || f == "B") (fun _ f => f == "A") := by
  refine ⟨⟨rfl, by decide⟩, ?_, by decide⟩
  intro y x hfeas
  obtain ⟨-, -, hforced, -, hcap, -⟩ := hfeas
  have hA : y "A" = true := hforced "A" (by decide)
  have hle := hcap 1 rfl
  have hcs : candidateSetOf (facilitiesOf capDemoFixedCosts) (forcedOf (some ["A"]))
      (some ["A", "B"]) = ["A", "B"] := rfl
  rw [hcs] at hle
  simp only [List.countP_cons, List.countP_nil, hA, if_true] at hle
  cases hyB : y "B"
  · rfl
  · rw [hyB] at hle
    simp at hle

/-- Witness for `forced_counts_against_cap`: the assignment opening
only the forced `A` is feasible for the model the code builds, and the
theorem pins `open[B] = 0` on it. -/
theorem forced_counts_against_cap_witness :
    feasibleAssignment (facilitiesOf capDemoFixedCosts) (clientsOf capDemoCostMatrix)
      (forcedOf (some ["A"]))
      (candidateSetOf (facilitiesOf capDemoFixedCosts) (forcedOf (some ["A"]))
        (some ["A", "B"]))
      (demandOfClient capDemoCostMatrix none) none (some 1) none
      (fun f => f == "A") (fun _ f => f == "A") ∧
    (fun (f : String) => f == "A") "B" = false := by
  refine ⟨by decide, ?_⟩
  exact forced_counts_against_cap.2.1 (fun f => f == "A") (fun _ f => f == "A") (by decide)
